import Mathlib

/-!
# Wallet addresses and key-material records (`wallet.go`)

A shallow embedding of `wallet.go`: address derivation (`GetAddress`,
`HashPubKey`, `checksum`), address validation (`ValidateAddress`), key
generation (`NewWallet`) and the hand-written gob record of a wallet
(`GobEncode`, `GobDecode`); and of the two command-line entry points of
`cli_createblockchain.go` and `cli_send.go` as traces of the calls they make.

Conventions of the embedding.
* A Go `byte` is a `Fin 256`; a `[]byte` and a `string` are both `List Byte`
  (the conversions `[]byte(s)` and `string(b)` copy the bytes unchanged).
* A Go `int` is an `Int`; lengths stay far below the machine width here.
* A run-time panic of a function returning `T` is the value `none` of
  `Option T`.
* Functions that `wallet.go` calls and that are defined elsewhere (the hash
  functions of the standard library, `Base58Encode` and `Base58Decode` of this
  package, the gob wire format) are fields of a structure that the embedded
  functions take as a parameter.
-/

namespace BlockchainGo

/-- A Go `byte`. -/
abbrev Byte := Fin 256

/-- The functions `wallet.go` calls for hashing and for Base58. `Sum256` is
`sha256.Sum256`, whose result type is `[32]byte`; `Ripemd160` is the digest of
a fresh `ripemd160.New()` hasher after one `Write`, whose size is 20 bytes.
`Base58Encode` and `Base58Decode` have the signature `[]byte -> []byte` seen at
their call sites; nothing else is assumed about them. -/
structure Primitives where
  Sum256 : List Byte → List Byte
  Sum256_length : ∀ data, (Sum256 data).length = 32
  Ripemd160 : List Byte → List Byte
  Ripemd160_length : ∀ data, (Ripemd160 data).length = 20
  Base58Encode : List Byte → List Byte
  Base58Decode : List Byte → List Byte

/-- The constant `version = byte(0x00)`. -/
def version : Byte := 0x00

/-- The constant `addressChecksumLen = 4`. -/
def addressChecksumLen : Int := 4

/-! ## Slices -/

/-- The slice expression `s[lo:]`; `none` is the panic "slice bounds out of range". -/
def sliceFrom (s : List Byte) (lo : Int) : Option (List Byte) :=
  if 0 ≤ lo ∧ lo ≤ (s.length : Int) then some (s.drop lo.toNat) else none

/-- The slice expression `s[lo:hi]` on a slice whose capacity is its length;
`none` is the panic "slice bounds out of range". -/
def slice (s : List Byte) (lo hi : Int) : Option (List Byte) :=
  if 0 ≤ lo ∧ lo ≤ hi ∧ hi ≤ (s.length : Int) then
    some ((s.take hi.toNat).drop lo.toNat)
  else none

/-- The index expression `s[i]`; `none` is the panic "index out of range". -/
def index (s : List Byte) (i : Int) : Option Byte :=
  if 0 ≤ i then s[i.toNat]? else none

/-! ## Keys and wallets -/

/-- The values an `elliptic.Curve` of the standard library can hold. -/
inductive Curve where
  | P224
  | P256
  | P384
  | P521
  deriving DecidableEq

/-- The struct `ecdsa.PublicKey`: `Curve` is an interface value and `X`, `Y` are
`*big.Int`; `none` is `nil`. -/
structure EcdsaPublicKey where
  Curve : Option Curve
  X : Option Int
  Y : Option Int
  deriving DecidableEq

/-- The struct `ecdsa.PrivateKey`: an embedded `PublicKey` and `D *big.Int`. -/
structure EcdsaPrivateKey where
  PublicKey : EcdsaPublicKey
  D : Option Int
  deriving DecidableEq

/-- The struct `Wallet`. -/
structure Wallet where
  PrivateKey : EcdsaPrivateKey
  PublicKey : List Byte
  deriving DecidableEq

/-- The zero value `Wallet{}`: every pointer and the interface are `nil`, the
slice is empty. -/
def Wallet.zero : Wallet :=
  { PrivateKey := { PublicKey := { Curve := none, X := none, Y := none }, D := none },
    PublicKey := [] }

/-! ## Addresses -/

/-- The function `checksum`: the first `addressChecksumLen` bytes of the double
SHA-256 of the payload. The slice `secondSHA[:4]` of a `[32]byte` is in bounds. -/
def checksum (P : Primitives) (payload : List Byte) : List Byte :=
  let firstSHA := P.Sum256 payload
  let secondSHA := P.Sum256 firstSHA
  secondSHA.take addressChecksumLen.toNat

/-- The function `HashPubKey`: RIPEMD-160 of SHA-256 of the public key. The
`Write` of a hasher returns no error, so the `log.Panic` branch is not taken. -/
def HashPubKey (P : Primitives) (pubKey : List Byte) : List Byte :=
  let publicSHA256 := P.Sum256 pubKey
  let publicRIPEMD160 := P.Ripemd160 publicSHA256
  publicRIPEMD160

/-- The value `fullPayload` built by `GetAddress` before it is Base58 encoded. -/
def Wallet.fullPayload (P : Primitives) (w : Wallet) : List Byte :=
  let pubKeyHash := HashPubKey P w.PublicKey
  let versionedPayload := [version] ++ pubKeyHash
  let checksum := checksum P versionedPayload
  versionedPayload ++ checksum

/-- The method `Wallet.GetAddress`. -/
def Wallet.GetAddress (P : Primitives) (w : Wallet) : List Byte :=
  let fullPayload := w.fullPayload P
  let address := P.Base58Encode fullPayload
  address

/-- The function `ValidateAddress`; `none` is a run-time panic of one of its
slice or index expressions. -/
def ValidateAddress (P : Primitives) (address : List Byte) : Option Bool := do
  let decoded := P.Base58Decode address
  let actualChecksum ← sliceFrom decoded ((decoded.length : Int) - addressChecksumLen)
  let version ← index decoded 0
  let pubKeyHash ← slice decoded 1 ((decoded.length : Int) - addressChecksumLen)
  let targetChecksum := checksum P ([version] ++ pubKeyHash)
  pure (decide (actualChecksum = targetChecksum))

/-! ## Big integers -/

/-- The unsigned integer denoted by a big-endian byte string. -/
def bytesToNat (b : List Byte) : Nat :=
  b.foldl (fun acc x => acc * 256 + x.val) 0

/-- Worker of `natBytes`: prepends the base-256 digits of `n` to `acc`, least
significant first; `fuel` bounds the number of digits. -/
def natBytesAux : Nat → Nat → List Byte → List Byte
  | 0, _, acc => acc
  | fuel + 1, n, acc =>
    if n = 0 then acc
    else natBytesAux fuel (n / 256) (⟨n % 256, Nat.mod_lt n (by decide)⟩ :: acc)

/-- The big-endian byte string of a natural number, without leading zero
bytes; zero is the empty string. -/
def natBytes (n : Nat) : List Byte := natBytesAux n n []

/-- The method `(*big.Int).Bytes`: the big-endian bytes of the absolute value. -/
def bigBytes (x : Int) : List Byte := natBytes x.natAbs

/-- The call `new(big.Int).SetBytes(b)`: the non-negative integer denoted by
the big-endian byte string `b`. -/
def bigSetBytes (b : List Byte) : Int := (bytesToNat b : Int)

/-! ## The gob stream -/

/-- The values `wallet.go` passes to `Encoder.Encode`: a `string` or a `[]byte`. -/
inductive GobValue where
  | str (s : List Byte)
  | bytes (b : List Byte)
  deriving DecidableEq

/-- The wire format of `encoding/gob` for one value. `encode v` is the message
that one `Encoder.Encode(v)` appends to its buffer; for a string or a byte slice
written to a `bytes.Buffer` the call returns no error. `decode` reads the first
message of a buffer and returns its value with the bytes after it, or `none`
when the buffer holds no complete message of these types. Messages are
self-delimiting: what was encoded is read back, whatever follows it. -/
structure GobCodec where
  encode : GobValue → List Byte
  decode : List Byte → Option (GobValue × List Byte)
  decode_encode : ∀ v rest, decode (encode v ++ rest) = some (v, rest)

/-- The call `decoder.Decode(&s)` for a `string` variable: the value read and
the rest of the buffer, or `none` for a non-nil error (no message, or a message
of another type). -/
def GobCodec.DecodeString (G : GobCodec) (buffer : List Byte) :
    Option (List Byte × List Byte) :=
  match G.decode buffer with
  | some (GobValue.str s, rest) => some (s, rest)
  | _ => none

/-- The call `decoder.Decode(&b)` for a `[]byte` variable, like `DecodeString`. -/
def GobCodec.DecodeBytes (G : GobCodec) (buffer : List Byte) :
    Option (List Byte × List Byte) :=
  match G.decode buffer with
  | some (GobValue.bytes b, rest) => some (b, rest)
  | _ => none

/-- The errors `GobDecode` returns: an error of the gob decoder, or the
`fmt.Errorf("unsupported curve: %s", curveName)` of the curve switch. -/
inductive GobError where
  | decode
  | unsupportedCurve (curveName : List Byte)
  deriving DecidableEq

/-- The string literal `"P256"`. -/
def curveNameP256 : List Byte := [0x50, 0x32, 0x35, 0x36]

/-- The method `Wallet.GobEncode`. `none` is the nil-pointer panic of `Bytes()`
on a nil `D`, `X` or `Y`; otherwise the result is `buffer.Bytes()` with a nil
error, as no `Encode` call fails. -/
def Wallet.GobEncode (G : GobCodec) (w : Wallet) : Option (List Byte) := do
  let buffer : List Byte := []
  let curveName := curveNameP256
  let buffer := buffer ++ G.encode (GobValue.str curveName)
  let privateKeyBytes ← w.PrivateKey.D.map bigBytes
  let buffer := buffer ++ G.encode (GobValue.bytes privateKeyBytes)
  let xBytes ← w.PrivateKey.PublicKey.X.map bigBytes
  let yBytes ← w.PrivateKey.PublicKey.Y.map bigBytes
  let buffer := buffer ++ G.encode (GobValue.bytes xBytes)
  let buffer := buffer ++ G.encode (GobValue.bytes yBytes)
  let buffer := buffer ++ G.encode (GobValue.bytes w.PublicKey)
  pure buffer

/-- The method `Wallet.GobDecode`: the receiver after the call and the error
returned (`none` is a nil error). Assignments to the receiver made before an
error return stay in place. -/
def Wallet.GobDecode (G : GobCodec) (w : Wallet) (data : List Byte) :
    Wallet × Option GobError :=
  let buffer := data
  match G.DecodeString buffer with
  | none => (w, some GobError.decode)
  | some (curveName, buffer) =>
    if curveName = curveNameP256 then
      let curve := Curve.P256
      match G.DecodeBytes buffer with
      | none => (w, some GobError.decode)
      | some (privateKeyBytes, buffer) =>
        let w : Wallet :=
          { w with PrivateKey :=
              { PublicKey := { w.PrivateKey.PublicKey with Curve := some curve },
                D := some (bigSetBytes privateKeyBytes) } }
        match G.DecodeBytes buffer with
        | none => (w, some GobError.decode)
        | some (xBytes, buffer) =>
          match G.DecodeBytes buffer with
          | none => (w, some GobError.decode)
          | some (yBytes, buffer) =>
            let w : Wallet :=
              { w with PrivateKey :=
                  { w.PrivateKey with PublicKey :=
                      { w.PrivateKey.PublicKey with
                        X := some (bigSetBytes xBytes), Y := some (bigSetBytes yBytes) } } }
            match G.DecodeBytes buffer with
            | none => (w, some GobError.decode)
            | some (publicKey, _) => ({ w with PublicKey := publicKey }, none)
    else (w, some (GobError.unsupportedCurve curveName))

/-- The serialized record in the words of the specification: the curve
identifier token, the private-scalar bytes, the public-X bytes, the public-Y
bytes and the raw public-key bytes, one gob message each, in that fixed order. -/
def record (G : GobCodec) (curveName d x y publicKey : List Byte) : List Byte :=
  G.encode (GobValue.str curveName) ++ G.encode (GobValue.bytes d)
    ++ G.encode (GobValue.bytes x) ++ G.encode (GobValue.bytes y)
    ++ G.encode (GobValue.bytes publicKey)

/-! ## Key generation -/

/-- The function `newKeyPair`. The argument is what
`ecdsa.GenerateKey(elliptic.P256(), rand.Reader)` produces: `none` for a non-nil
error, otherwise the scalar `D` and the coordinates `X`, `Y` of the key it
returns. `none` as a result is the `log.Panic(err)`. -/
def newKeyPair (generated : Option (Int × Int × Int)) :
    Option (EcdsaPrivateKey × List Byte) :=
  let curve := Curve.P256
  match generated with
  | none => none
  | some (d, x, y) =>
    let key : EcdsaPrivateKey :=
      { PublicKey := { Curve := some curve, X := some x, Y := some y }, D := some d }
    let pubKey := bigBytes x ++ bigBytes y
    some (key, pubKey)

/-- The function `NewWallet`; `none` is the panic of `newKeyPair`. -/
def NewWallet (generated : Option (Int × Int × Int)) : Option Wallet :=
  match newKeyPair generated with
  | none => none
  | some (key, pubKey) => some { PrivateKey := key, PublicKey := pubKey }

/-- The property that the raw public key of a wallet is the bytes of `X`
followed by the bytes of `Y`, with `X` and `Y` present. -/
def Wallet.pubKeyIsXY (w : Wallet) : Bool :=
  match w.PrivateKey.PublicKey.X, w.PrivateKey.PublicKey.Y with
  | some x, some y => decide (w.PublicKey = bigBytes x ++ bigBytes y)
  | _, _ => false

/-! ## The command-line entry points -/

/-- The types, functions and the variable of the package that the entry points
use and that are declared in other files. A call returns the value given here;
that the call was made is recorded in the trace of the entry point. `NewWallets`
returns the wallets and whether its error is non-nil. -/
structure Collaborators where
  Blockchain : Type
  Wallets : Type
  Transaction : Type
  Block : Type
  Peer : Type
  CreateBlockchain : List Byte → List Byte → Blockchain
  NewBlockchain : List Byte → Blockchain
  NewWallets : List Byte → Wallets × Bool
  GetWallet : Wallets → List Byte → Wallet
  NewUTXOTransaction : Wallet → List Byte → Int → Blockchain → Transaction
  NewCoinbaseTX : List Byte → List Byte → Transaction
  MineBlock : Blockchain → List Transaction → Block
  knownNodes : List Peer

/-- One observable step of an entry point: a call of a collaborator with its
arguments, or a call of `log`, `fmt` or `os`. `Reindex` and `Update` carry the
chain their `UTXOSet` wraps, `dbClose` is `bc.db.Close()`. -/
inductive Event (C : Collaborators) where
  | logPrintln (msg : String)
  | logPanic
  | osExit (code : Int)
  | fmtPrintln (msg : String)
  | CreateBlockchain (address nodeID : List Byte)
  | NewBlockchain (nodeID : List Byte)
  | dbClose (bc : C.Blockchain)
  | Reindex (bc : C.Blockchain)
  | NewWallets (nodeID : List Byte)
  | GetWallet (wallets : C.Wallets) (address : List Byte)
  | NewUTXOTransaction (wallet : Wallet) (to_ : List Byte) (amount : Int) (bc : C.Blockchain)
  | NewCoinbaseTX (to_ data : List Byte)
  | MineBlock (bc : C.Blockchain) (txs : List C.Transaction)
  | Update (bc : C.Blockchain) (block : C.Block)
  | sendTx (peer : C.Peer) (tx : C.Transaction)

/-- Whether the event touches a collaborator: everything but logging, printing
and exiting. -/
def Event.isCollaborator {C : Collaborators} : Event C → Bool
  | Event.logPrintln _ => false
  | Event.logPanic => false
  | Event.osExit _ => false
  | Event.fmtPrintln _ => false
  | _ => true

/-- Whether the event is a call of `CreateBlockchain`. -/
def Event.isCreateBlockchain {C : Collaborators} : Event C → Bool
  | Event.CreateBlockchain _ _ => true
  | _ => false

/-- Whether the event is a call of `UTXOSet.Reindex`. -/
def Event.isReindex {C : Collaborators} : Event C → Bool
  | Event.Reindex _ => true
  | _ => false

/-- Whether the event is a call of `MineBlock`. -/
def Event.isMineBlock {C : Collaborators} : Event C → Bool
  | Event.MineBlock _ _ => true
  | _ => false

/-- Whether the event is a call of `UTXOSet.Update`. -/
def Event.isUpdate {C : Collaborators} : Event C → Bool
  | Event.Update _ _ => true
  | _ => false

/-- Whether the event is a call of `sendTx`. -/
def Event.isSendTx {C : Collaborators} : Event C → Bool
  | Event.sendTx _ _ => true
  | _ => false

/-- Modelled from the spec: the calls that write the local chain or the UTXO
cache. The spec names creating a chain, mining and appending a block, and
`reindex` and `update` of the cache as the mutations of local state; opening the
chain, loading the wallets, building a transaction and sending it to a peer are
not among them. The functions themselves are declared outside these files. -/
def Event.writesChainOrCache {C : Collaborators} : Event C → Bool
  | Event.CreateBlockchain _ _ => true
  | Event.Reindex _ => true
  | Event.MineBlock _ _ => true
  | Event.Update _ _ => true
  | _ => false

/-- How an entry point ends: it returns, the process exits through `os.Exit`,
or a panic leaves the function. -/
inductive Termination where
  | returned
  | exited (code : Int)
  | panicked
  deriving DecidableEq

/-- A run of an entry point: the events in the order they happen and the way
the function ends. -/
structure Run (C : Collaborators) where
  trace : List (Event C)
  result : Termination

/-- The message of `createBlockchain` for an invalid address. -/
def msgAddressNotValid : String := "ERROR: Address is not valid"

/-- The message of `send` for an invalid sender. -/
def msgSenderNotValid : String := "ERROR: Sender address is not valid"

/-- The message of `send` for an invalid recipient. -/
def msgRecipientNotValid : String := "ERROR: Recipient address is not valid"

/-- The message of `send` for equal addresses. -/
def msgSameAddress : String := "ERROR: Sender and Recipient cannot be same"

/-- The message `Done!`. -/
def msgDone : String := "Done!"

/-- The message `Success!`. -/
def msgSuccess : String := "Success!"

/-- The method `CLI.createBlockchain`. A panic of `ValidateAddress` leaves the
function before any call; `os.Exit` ends the process, so nothing follows it; the
deferred `bc.db.Close()` runs when the function returns. -/
def CLI.createBlockchain (P : Primitives) (C : Collaborators) (address nodeID : List Byte) :
    Run C :=
  match ValidateAddress P address with
  | none => { trace := [], result := Termination.panicked }
  | some false =>
    { trace := [Event.logPrintln msgAddressNotValid, Event.osExit 1],
      result := Termination.exited 1 }
  | some true =>
    let bc := C.CreateBlockchain address nodeID
    { trace := [Event.CreateBlockchain address nodeID, Event.Reindex bc,
        Event.fmtPrintln msgDone, Event.dbClose bc],
      result := Termination.returned }

/-- The method `CLI.send`. The deferred `bc.db.Close()` runs when the function
returns and also when `log.Panic(err)` or the index expression `knownNodes[0]`
panics. -/
def CLI.send (P : Primitives) (C : Collaborators) (from_ to_ : List Byte) (amount : Int)
    (nodeID : List Byte) (mineNow : Bool) : Run C :=
  match ValidateAddress P from_ with
  | none => { trace := [], result := Termination.panicked }
  | some false =>
    { trace := [Event.logPrintln msgSenderNotValid, Event.osExit 1],
      result := Termination.exited 1 }
  | some true =>
    match ValidateAddress P to_ with
    | none => { trace := [], result := Termination.panicked }
    | some false =>
      { trace := [Event.logPrintln msgRecipientNotValid, Event.osExit 1],
        result := Termination.exited 1 }
    | some true =>
      if from_ = to_ then
        { trace := [Event.logPrintln msgSameAddress, Event.osExit 1],
          result := Termination.exited 1 }
      else
        let bc := C.NewBlockchain nodeID
        let wallets := (C.NewWallets nodeID).1
        let err := (C.NewWallets nodeID).2
        let opened : List (Event C) := [Event.NewBlockchain nodeID, Event.NewWallets nodeID]
        if err then
          { trace := opened ++ [Event.logPanic, Event.dbClose bc],
            result := Termination.panicked }
        else
          let wallet := C.GetWallet wallets from_
          let tx := C.NewUTXOTransaction wallet to_ amount bc
          let built : List (Event C) :=
            opened ++ [Event.GetWallet wallets from_,
              Event.NewUTXOTransaction wallet to_ amount bc]
          if mineNow then
            let cbTx := C.NewCoinbaseTX from_ []
            let txs := [cbTx, tx]
            let newBlock := C.MineBlock bc txs
            { trace := built ++ [Event.NewCoinbaseTX from_ [], Event.MineBlock bc txs,
                Event.Update bc newBlock, Event.fmtPrintln msgSuccess, Event.dbClose bc],
              result := Termination.returned }
          else
            match C.knownNodes with
            | [] => { trace := built ++ [Event.dbClose bc], result := Termination.panicked }
            | node :: _ =>
              { trace := built ++ [Event.sendTx node tx, Event.fmtPrintln msgSuccess,
                  Event.dbClose bc],
                result := Termination.returned }

/-! ## A small instance for evaluation -/

/-- A folding of a byte string into one number below 251. -/
def demoMix (data : List Byte) : Nat :=
  data.foldl (fun acc b => (acc * 7 + b.val + 1) % 251) 0

/-- An instance of `Primitives` on which the embedded functions can be
evaluated: both digests repeat one mixed byte and Base58 is the identity. -/
def demoPrimitives : Primitives where
  Sum256 data := List.replicate 32 (Fin.ofNat (demoMix data))
  Sum256_length _ := List.length_replicate _ _
  Ripemd160 data := List.replicate 20 (Fin.ofNat (demoMix data + 1))
  Ripemd160_length _ := List.length_replicate _ _
  Base58Encode data := data
  Base58Decode data := data

/-- Reads a length written as that many bytes 1 followed by a byte 0. -/
def demoReadLength : List Byte → Option (Nat × List Byte)
  | [] => none
  | b :: rest =>
    if b = 0 then some (0, rest)
    else if b = 1 then
      match demoReadLength rest with
      | some (n, body) => some (n + 1, body)
      | none => none
    else none

/-- The message of the evaluation codec: a tag byte (0 for a string, 1 for a
byte slice), the length in unary, the bytes. -/
def demoEncode : GobValue → List Byte
  | GobValue.str s => (0 : Byte) :: (List.replicate s.length (1 : Byte) ++ (0 : Byte) :: s)
  | GobValue.bytes b => (1 : Byte) :: (List.replicate b.length (1 : Byte) ++ (0 : Byte) :: b)

/-- The reader of the evaluation codec. -/
def demoDecode : List Byte → Option (GobValue × List Byte)
  | [] => none
  | tag :: rest =>
    match demoReadLength rest with
    | none => none
    | some (n, body) =>
      if body.length < n then none
      else if tag = 0 then some (GobValue.str (body.take n), body.drop n)
      else if tag = 1 then some (GobValue.bytes (body.take n), body.drop n)
      else none

/-- An instance of `GobCodec` on which the embedded functions can be evaluated. -/
def demoGob : GobCodec where
  encode := demoEncode
  decode := demoDecode
  decode_encode := by
    have hread : ∀ (n : Nat) (tail : List Byte),
        demoReadLength (List.replicate n (1 : Byte) ++ (0 : Byte) :: tail) = some (n, tail) := by
      intro n tail
      induction n with
      | zero => simp [demoReadLength]
      | succ k ih => simp [List.replicate_succ, demoReadLength, ih]
    intro v rest
    cases v with
    | str s => simp [demoEncode, demoDecode, hread]
    | bytes b => simp [demoEncode, demoDecode, hread]

/-- An instance of `Collaborators` on which the entry points can be evaluated:
chains, wallets, transactions, blocks and peers are numbers. -/
def demoCollaborators : Collaborators where
  Blockchain := Nat
  Wallets := Nat
  Transaction := Nat
  Block := Nat
  Peer := Nat
  CreateBlockchain _ nodeID := nodeID.length
  NewBlockchain nodeID := nodeID.length
  NewWallets _ := (7, false)
  GetWallet _ _ := Wallet.zero
  NewUTXOTransaction _ _ amount _ := amount.toNat
  NewCoinbaseTX _ _ := 0
  MineBlock _ txs := txs.length
  knownNodes := [3000, 3001]

/-- An instance of `Collaborators` like `demoCollaborators` in which
`NewWallets` returns a non-nil error. -/
def demoCollaboratorsNoWallets : Collaborators where
  Blockchain := Nat
  Wallets := Nat
  Transaction := Nat
  Block := Nat
  Peer := Nat
  CreateBlockchain _ nodeID := nodeID.length
  NewBlockchain nodeID := nodeID.length
  NewWallets _ := (0, true)
  GetWallet _ _ := Wallet.zero
  NewUTXOTransaction _ _ amount _ := amount.toNat
  NewCoinbaseTX _ _ := 0
  MineBlock _ txs := txs.length
  knownNodes := [3000, 3001]

/-! ## Slices of a decoded payload -/

theorem checksumLen_toNat (n : Nat) :
    ((n : Int) - addressChecksumLen).toNat = n - 4 := by
  unfold addressChecksumLen; omega

theorem sliceFrom_tail (p : List Byte) (h : 4 ≤ p.length) :
    sliceFrom p ((p.length : Int) - addressChecksumLen) = some (p.drop (p.length - 4)) := by
  have hc : 0 ≤ (p.length : Int) - addressChecksumLen ∧
      (p.length : Int) - addressChecksumLen ≤ (p.length : Int) := by
    unfold addressChecksumLen; omega
  simp only [sliceFrom, hc, and_self, if_true, checksumLen_toNat]

theorem sliceFrom_short (p : List Byte) (h : p.length < 4) :
    sliceFrom p ((p.length : Int) - addressChecksumLen) = none := by
  have hc : ¬ (0 ≤ (p.length : Int) - addressChecksumLen ∧
      (p.length : Int) - addressChecksumLen ≤ (p.length : Int)) := by
    unfold addressChecksumLen; omega
  simp only [sliceFrom, hc, if_false]

theorem slice_body (p : List Byte) (h : 5 ≤ p.length) :
    slice p 1 ((p.length : Int) - addressChecksumLen)
      = some ((p.take (p.length - 4)).drop 1) := by
  have hc : (0 : Int) ≤ 1 ∧ 1 ≤ (p.length : Int) - addressChecksumLen ∧
      (p.length : Int) - addressChecksumLen ≤ (p.length : Int) := by
    unfold addressChecksumLen; omega
  have h1 : (1 : Int).toNat = 1 := rfl
  simp only [slice, hc, and_self, if_true, checksumLen_toNat, h1]

theorem slice_short (p : List Byte) (h : p.length < 5) :
    slice p 1 ((p.length : Int) - addressChecksumLen) = none := by
  have hc : ¬ ((0 : Int) ≤ 1 ∧ 1 ≤ (p.length : Int) - addressChecksumLen ∧
      (p.length : Int) - addressChecksumLen ≤ (p.length : Int)) := by
    unfold addressChecksumLen; omega
  simp only [slice, hc, if_false]

theorem index_zero_cons (a : Byte) (t : List Byte) : index (a :: t) 0 = some a := by
  simp [index]

theorem head_cons_body (a : Byte) (t : List Byte) (h : 5 ≤ (a :: t).length) :
    [a] ++ ((a :: t).take ((a :: t).length - 4)).drop 1
      = (a :: t).take ((a :: t).length - 4) := by
  have hk : (a :: t).length - 4 = (t.length - 4) + 1 := by
    simp only [List.length_cons] at h ⊢; omega
  rw [hk]; simp

/-- On a decoded payload of at least five bytes `ValidateAddress` returns, and
its result is the comparison of the trailing four bytes with the checksum of
the bytes before them. -/
theorem ValidateAddress_long (P : Primitives) (address : List Byte)
    (h : 5 ≤ (P.Base58Decode address).length) :
    ValidateAddress P address
      = some (decide ((P.Base58Decode address).drop ((P.Base58Decode address).length - 4)
          = checksum P ((P.Base58Decode address).take
              ((P.Base58Decode address).length - 4)))) := by
  unfold ValidateAddress
  generalize P.Base58Decode address = p at h ⊢
  cases p with
  | nil => simp at h
  | cons a t =>
    have h4 : 4 ≤ (a :: t).length := by omega
    simp only [sliceFrom_tail _ h4, index_zero_cons, slice_body _ h, Option.bind_eq_bind,
      Option.some_bind, head_cons_body a t h, Option.pure_def]

/-- On a decoded payload of fewer than five bytes `ValidateAddress` panics. -/
theorem ValidateAddress_short (P : Primitives) (address : List Byte)
    (h : (P.Base58Decode address).length < 5) :
    ValidateAddress P address = none := by
  unfold ValidateAddress
  generalize P.Base58Decode address = p at h ⊢
  simp only [slice_short _ h, Option.bind_eq_bind]
  cases sliceFrom p ((p.length : Int) - addressChecksumLen) with
  | none => rfl
  | some c =>
    cases index p 0 with
    | none => rfl
    | some v => rfl

/-! ## The payload built by `GetAddress` -/

theorem checksum_length (P : Primitives) (payload : List Byte) :
    (checksum P payload).length = 4 := by
  have h4 : addressChecksumLen.toNat = 4 := rfl
  simp [checksum, h4, P.Sum256_length]

theorem HashPubKey_length (P : Primitives) (pubKey : List Byte) :
    (HashPubKey P pubKey).length = 20 := by
  simp [HashPubKey, P.Ripemd160_length]

theorem fullPayload_length (P : Primitives) (w : Wallet) :
    (w.fullPayload P).length = 25 := by
  simp [Wallet.fullPayload, checksum_length, HashPubKey_length]

theorem fullPayload_drop (P : Primitives) (w : Wallet) :
    (w.fullPayload P).drop 21 = checksum P ([version] ++ HashPubKey P w.PublicKey) := by
  have hl : ([version] ++ HashPubKey P w.PublicKey).length = 21 := by
    simp [HashPubKey_length]
  exact List.drop_left' hl

theorem fullPayload_take (P : Primitives) (w : Wallet) :
    (w.fullPayload P).take 21 = [version] ++ HashPubKey P w.PublicKey := by
  have hl : ([version] ++ HashPubKey P w.PublicKey).length = 21 := by
    simp [HashPubKey_length]
  exact List.take_left' hl

/-! ## Payloads that differ in one byte -/

theorem take_eq_of_agree_below (p q : List Byte) (n : Nat)
    (h : ∀ j, j < n → p[j]? = q[j]?) : p.take n = q.take n := by
  apply List.ext_getElem?
  intro j
  by_cases hj : j < n
  · rw [List.getElem?_take_of_lt hj, List.getElem?_take_of_lt hj]; exact h j hj
  · simp [List.getElem?_take, hj]

theorem drop_eq_of_agree_above (p q : List Byte) (n : Nat)
    (h : ∀ j, n ≤ j → p[j]? = q[j]?) : p.drop n = q.drop n := by
  apply List.ext_getElem?
  intro j
  rw [List.getElem?_drop, List.getElem?_drop]
  exact h (n + j) (Nat.le_add_right n j)

theorem take_ne_of_differ_below (p q : List Byte) (n i : Nat) (hi : i < n)
    (h : p[i]? ≠ q[i]?) : p.take n ≠ q.take n := by
  intro heq
  apply h
  have := congrArg (fun l => l[i]?) heq
  simpa [List.getElem?_take_of_lt hi] using this

theorem drop_ne_of_differ_above (p q : List Byte) (n i : Nat) (hi : n ≤ i)
    (h : p[i]? ≠ q[i]?) : p.drop n ≠ q.drop n := by
  intro heq
  apply h
  have := congrArg (fun l => l[i - n]?) heq
  simp only [List.getElem?_drop] at this
  have hn : n + (i - n) = i := by omega
  rwa [hn] at this

theorem length_of_accepted (P : Primitives) (address : List Byte)
    (h : ValidateAddress P address = some true) : 5 ≤ (P.Base58Decode address).length := by
  by_contra hlt
  have hs := ValidateAddress_short P address (by omega)
  rw [hs] at h
  exact Option.noConfusion h

/-! ## Claims about addresses -/

/-- C1: for every wallet, `ValidateAddress` applied to the string of
`GetAddress()` returns true, provided `Base58Decode` inverts `Base58Encode` on
the 25-byte payload, starting with the byte 0x00, that `GetAddress` builds. -/
theorem validateAddress_getAddress (P : Primitives) (w : Wallet)
    (hinv : P.Base58Decode (P.Base58Encode (w.fullPayload P)) = w.fullPayload P) :
    (w.fullPayload P).length = 25 ∧ (w.fullPayload P).head? = some 0x00 ∧
      ValidateAddress P (w.GetAddress P) = some true := by
  refine ⟨fullPayload_length P w, rfl, ?_⟩
  have hlen : 5 ≤ (P.Base58Decode (w.GetAddress P)).length := by
    simp only [Wallet.GetAddress, hinv, fullPayload_length]; omega
  rw [ValidateAddress_long P _ hlen]
  have h21 : 25 - 4 = 21 := rfl
  simp only [Wallet.GetAddress, hinv, fullPayload_length, h21, fullPayload_drop,
    fullPayload_take, decide_True]

/-- Witness of C1: the zero wallet under the evaluation instance, whose Base58
functions are inverse to each other. -/
theorem validateAddress_getAddress_witness :
    (Wallet.zero.fullPayload demoPrimitives).length = 25 ∧
      (Wallet.zero.fullPayload demoPrimitives).head? = some 0x00 ∧
      ValidateAddress demoPrimitives (Wallet.zero.GetAddress demoPrimitives) = some true :=
  validateAddress_getAddress demoPrimitives Wallet.zero rfl

/-- C2: `ValidateAddress` does not return a boolean on every input: whenever
the Base58-decoded payload has fewer than five bytes, one of the slice
expressions `payload[len-4:]` and `payload[1:len-4]` is out of bounds and the
call panics instead of returning false. -/
theorem validateAddress_panics_on_short_payload (P : Primitives) (address : List Byte)
    (h : (P.Base58Decode address).length < 5) :
    ValidateAddress P address = none ∧ ValidateAddress P address ≠ some false := by
  have hs := ValidateAddress_short P address h
  exact ⟨hs, by rw [hs]; exact fun hc => Option.noConfusion hc⟩

/-- Witness of C2: a one-byte and an empty decoded payload. -/
theorem validateAddress_panics_on_short_payload_witness :
    (ValidateAddress demoPrimitives [0x01] = none ∧
        ValidateAddress demoPrimitives [0x01] ≠ some false) ∧
      (ValidateAddress demoPrimitives [] = none ∧
        ValidateAddress demoPrimitives [] ≠ some false) :=
  ⟨validateAddress_panics_on_short_payload demoPrimitives [0x01] (by decide),
   validateAddress_panics_on_short_payload demoPrimitives [] (by decide)⟩

/-- Counterexample to C3: a decoded payload of six bytes, not 25, whose last
four bytes are the checksum of its first two, is accepted. -/
theorem validateAddress_accepts_six_bytes :
    (demoPrimitives.Base58Decode [0x00, 0x01, 50, 50, 50, 50]).length ≠ 25 ∧
      checksum demoPrimitives [0x00, 0x01] = [50, 50, 50, 50] ∧
      ValidateAddress demoPrimitives [0x00, 0x01, 50, 50, 50, 50] = some true := by
  decide

/-- C3, amended: for a decoded payload of at least five bytes whose length is
not 25, `ValidateAddress` returns false when the last four bytes differ from
the checksum of the bytes before them and true when they are equal to it; the
length itself is never a reason to reject. -/
theorem validateAddress_wrong_length (P : Primitives) (address : List Byte)
    (h5 : 5 ≤ (P.Base58Decode address).length)
    (_h25 : (P.Base58Decode address).length ≠ 25) :
    ((P.Base58Decode address).drop ((P.Base58Decode address).length - 4)
        ≠ checksum P ((P.Base58Decode address).take ((P.Base58Decode address).length - 4))
      → ValidateAddress P address = some false) ∧
    ((P.Base58Decode address).drop ((P.Base58Decode address).length - 4)
        = checksum P ((P.Base58Decode address).take ((P.Base58Decode address).length - 4))
      → ValidateAddress P address = some true) := by
  rw [ValidateAddress_long P address h5]
  constructor
  · intro hne; simp [hne]
  · intro heq; simp [heq]

/-- Witness of C3, amended: the six-byte payload with a matching checksum. -/
theorem validateAddress_wrong_length_witness :
    ValidateAddress demoPrimitives [0x00, 0x01, 50, 50, 50, 50] = some true :=
  (validateAddress_wrong_length demoPrimitives [0x00, 0x01, 50, 50, 50, 50]
    (by decide) (by decide)).2 (by decide)

/-- C4: for a decoded payload `p` of at least five bytes, `ValidateAddress`
returns true exactly when the last four bytes of `p` equal the first four bytes
of SHA-256(SHA-256(`p` without its last four bytes)), and false exactly when
they do not. -/
theorem validateAddress_iff_checksum (P : Primitives) (address : List Byte)
    (h5 : 5 ≤ (P.Base58Decode address).length) :
    (ValidateAddress P address = some true ↔
      (P.Base58Decode address).drop ((P.Base58Decode address).length - 4)
        = (P.Sum256 (P.Sum256 ((P.Base58Decode address).take
            ((P.Base58Decode address).length - 4)))).take 4) ∧
    (ValidateAddress P address = some false ↔
      (P.Base58Decode address).drop ((P.Base58Decode address).length - 4)
        ≠ (P.Sum256 (P.Sum256 ((P.Base58Decode address).take
            ((P.Base58Decode address).length - 4)))).take 4) := by
  rw [ValidateAddress_long P address h5]
  have h4 : addressChecksumLen.toNat = 4 := rfl
  simp [checksum, h4]

/-- Witness of C4: a five-byte payload whose checksum does not match. -/
theorem validateAddress_iff_checksum_witness :
    ValidateAddress demoPrimitives [5, 1, 2, 3, 4] = some false :=
  (validateAddress_iff_checksum demoPrimitives [5, 1, 2, 3, 4] (by decide)).2.mpr (by decide)

/-- C5: `GetAddress()` is `Base58Encode(0x00 ++ h ++ c)` where
`h = RIPEMD-160(SHA-256(PublicKey))` has 20 bytes and `c` is the first four
bytes of `SHA-256(SHA-256(0x00 ++ h))`; the encoded payload has exactly 25
bytes and `HashPubKey` returns exactly `h`. -/
theorem getAddress_eq (P : Primitives) (w : Wallet) :
    w.GetAddress P
        = P.Base58Encode ([0x00] ++ P.Ripemd160 (P.Sum256 w.PublicKey)
            ++ (P.Sum256 (P.Sum256 ([0x00] ++ P.Ripemd160 (P.Sum256 w.PublicKey)))).take 4) ∧
      (P.Ripemd160 (P.Sum256 w.PublicKey)).length = 20 ∧
      ((P.Sum256 (P.Sum256 ([0x00] ++ P.Ripemd160 (P.Sum256 w.PublicKey)))).take 4).length = 4 ∧
      ([0x00] ++ P.Ripemd160 (P.Sum256 w.PublicKey)
        ++ (P.Sum256 (P.Sum256 ([0x00] ++ P.Ripemd160 (P.Sum256 w.PublicKey)))).take 4).length
          = 25 ∧
      HashPubKey P w.PublicKey = P.Ripemd160 (P.Sum256 w.PublicKey) := by
  refine ⟨rfl, P.Ripemd160_length _, ?_, ?_, rfl⟩
  · simp [P.Sum256_length]
  · simp [P.Sum256_length, P.Ripemd160_length]

/-- C6: two wallets with the same `PublicKey` bytes have the same address,
whatever their `PrivateKey` fields (curve, `D`, `X`, `Y`) are. -/
theorem getAddress_deterministic (P : Primitives) (w1 w2 : Wallet)
    (h : w1.PublicKey = w2.PublicKey) : w1.GetAddress P = w2.GetAddress P := by
  simp only [Wallet.GetAddress, Wallet.fullPayload, h]

/-- Witness of C6: two wallets that differ in every private-key field and share
their public-key bytes. -/
theorem getAddress_deterministic_witness :
    (⟨⟨⟨some Curve.P256, some 7, some 8⟩, some 9⟩, [1, 2, 3]⟩ : Wallet).GetAddress demoPrimitives
      = (⟨⟨⟨some Curve.P384, some (-1), none⟩, none⟩, [1, 2, 3]⟩ : Wallet).GetAddress
          demoPrimitives :=
  getAddress_deterministic demoPrimitives _ _ rfl

/-- C10: let `p` be a decoded payload that `ValidateAddress` accepts and `p'` a
payload of the same length that differs from `p` at the single position `i`.
If `i` is among the last four positions, `p'` is rejected. If `i` is among the
leading positions, `p'` is rejected exactly when the first four bytes of the
double SHA-256 of the two leading parts differ. -/
theorem validateAddress_one_byte_changed (P : Primitives) (address address' : List Byte)
    (i : Nat)
    (hacc : ValidateAddress P address = some true)
    (hlen : (P.Base58Decode address').length = (P.Base58Decode address).length)
    (_hi : i < (P.Base58Decode address).length)
    (hdiff : (P.Base58Decode address)[i]? ≠ (P.Base58Decode address')[i]?)
    (hsame : ∀ j, j ≠ i → (P.Base58Decode address)[j]? = (P.Base58Decode address')[j]?) :
    ((P.Base58Decode address).length - 4 ≤ i → ValidateAddress P address' = some false) ∧
    (i < (P.Base58Decode address).length - 4 →
      (ValidateAddress P address' = some false ↔
        (P.Sum256 (P.Sum256 ((P.Base58Decode address).take
            ((P.Base58Decode address).length - 4)))).take 4
          ≠ (P.Sum256 (P.Sum256 ((P.Base58Decode address').take
            ((P.Base58Decode address').length - 4)))).take 4)) := by
  have h5 := length_of_accepted P address hacc
  have h5' : 5 ≤ (P.Base58Decode address').length := by omega
  rw [ValidateAddress_long P address h5] at hacc
  rw [ValidateAddress_long P address' h5', hlen]
  have hok : (P.Base58Decode address).drop ((P.Base58Decode address).length - 4)
      = checksum P ((P.Base58Decode address).take ((P.Base58Decode address).length - 4)) := by
    simpa using hacc
  have h4 : addressChecksumLen.toNat = 4 := rfl
  constructor
  · intro hge
    have htake := take_eq_of_agree_below (P.Base58Decode address) (P.Base58Decode address')
      ((P.Base58Decode address).length - 4) (fun j hj => hsame j (by omega))
    have hdrop := drop_ne_of_differ_above (P.Base58Decode address) (P.Base58Decode address')
      ((P.Base58Decode address).length - 4) i hge hdiff
    have hne : (P.Base58Decode address').drop ((P.Base58Decode address).length - 4)
        ≠ checksum P ((P.Base58Decode address').take ((P.Base58Decode address).length - 4)) := by
      rw [← htake, ← hok]; exact fun hc => hdrop hc.symm
    simp [hne]
  · intro hlt
    have hdrop := drop_eq_of_agree_above (P.Base58Decode address) (P.Base58Decode address')
      ((P.Base58Decode address).length - 4) (fun j hj => hsame j (by omega))
    rw [← hdrop, hok]
    simp [checksum, h4]

/-- Witness of C10: the accepted payload `00 01 32 32 32 32` with its last
byte changed, and with its second byte changed. -/
theorem validateAddress_one_byte_changed_witness :
    ValidateAddress demoPrimitives [0x00, 0x01, 50, 50, 50, 51] = some false ∧
      ValidateAddress demoPrimitives [0x00, 0x02, 50, 50, 50, 50] = some false :=
  ⟨(validateAddress_one_byte_changed demoPrimitives [0x00, 0x01, 50, 50, 50, 50]
      [0x00, 0x01, 50, 50, 50, 51] 5 (by decide) (by decide) (by decide) (by decide)
      (by
        intro j hj
        match j, hj with
        | 0, _ => rfl
        | 1, _ => rfl
        | 2, _ => rfl
        | 3, _ => rfl
        | 4, _ => rfl
        | 5, h => exact absurd rfl h
        | (n + 6), _ => rfl)).1 (by decide),
   ((validateAddress_one_byte_changed demoPrimitives [0x00, 0x01, 50, 50, 50, 50]
      [0x00, 0x02, 50, 50, 50, 50] 1 (by decide) (by decide) (by decide) (by decide)
      (by
        intro j hj
        match j, hj with
        | 0, _ => rfl
        | 1, h => exact absurd rfl h
        | (n + 2), _ => rfl)).2 (by decide)).mpr (by decide)⟩

/-! ## Big integers and their bytes -/

theorem bytesToNat_natBytesAux (fuel : Nat) :
    ∀ (n : Nat) (acc : List Byte), n ≤ fuel →
      bytesToNat (natBytesAux fuel n acc)
        = acc.foldl (fun a x => a * 256 + x.val) n := by
  induction fuel with
  | zero =>
    intro n acc hn
    have h0 : n = 0 := by omega
    subst h0
    rfl
  | succ k ih =>
    intro n acc hn
    by_cases h0 : n = 0
    · subst h0; rfl
    · have hk : n / 256 ≤ k := by omega
      have hdm : n / 256 * 256 + n % 256 = n := by omega
      simp only [natBytesAux, h0, if_false]
      rw [ih (n / 256) _ hk]
      simp only [List.foldl_cons, hdm]

theorem bytesToNat_natBytes (n : Nat) : bytesToNat (natBytes n) = n := by
  unfold natBytes
  rw [bytesToNat_natBytesAux n n [] (Nat.le_refl n)]
  rfl

theorem bigSetBytes_bigBytes (x : Int) (h : 0 ≤ x) : bigSetBytes (bigBytes x) = x := by
  unfold bigSetBytes bigBytes
  rw [bytesToNat_natBytes]
  omega

theorem bigBytes_bigSetBytes (x : Int) : bigBytes (bigSetBytes (bigBytes x)) = bigBytes x := by
  unfold bigSetBytes bigBytes
  rw [bytesToNat_natBytes, Int.natAbs_ofNat]

/-! ## Reading back a record -/

theorem DecodeString_encode (G : GobCodec) (s rest : List Byte) :
    G.DecodeString (G.encode (GobValue.str s) ++ rest) = some (s, rest) := by
  simp [GobCodec.DecodeString, G.decode_encode]

theorem DecodeBytes_encode (G : GobCodec) (b rest : List Byte) :
    G.DecodeBytes (G.encode (GobValue.bytes b) ++ rest) = some (b, rest) := by
  simp [GobCodec.DecodeBytes, G.decode_encode]

theorem DecodeBytes_encode_last (G : GobCodec) (b : List Byte) :
    G.DecodeBytes (G.encode (GobValue.bytes b)) = some (b, []) := by
  have h := DecodeBytes_encode G b []
  rwa [List.append_nil] at h

theorem GobDecode_record_unsupported (G : GobCodec) (w : Wallet)
    (curveName d x y publicKey : List Byte) (h : curveName ≠ curveNameP256) :
    w.GobDecode G (record G curveName d x y publicKey)
      = (w, some (GobError.unsupportedCurve curveName)) := by
  simp only [Wallet.GobDecode, record, List.append_assoc, DecodeString_encode, h, if_false]

theorem GobDecode_record_P256 (G : GobCodec) (w : Wallet) (d x y publicKey : List Byte) :
    w.GobDecode G (record G curveNameP256 d x y publicKey)
      = ({ PrivateKey :=
             { PublicKey :=
                 { Curve := some Curve.P256, X := some (bigSetBytes x),
                   Y := some (bigSetBytes y) },
               D := some (bigSetBytes d) },
           PublicKey := publicKey }, none) := by
  simp only [Wallet.GobDecode, record, List.append_assoc, DecodeString_encode,
    DecodeBytes_encode, DecodeBytes_encode_last, if_true]

theorem GobEncode_eq_record (G : GobCodec) (w : Wallet) (d x y : Int)
    (hD : w.PrivateKey.D = some d) (hX : w.PrivateKey.PublicKey.X = some x)
    (hY : w.PrivateKey.PublicKey.Y = some y) :
    w.GobEncode G
      = some (record G curveNameP256 (bigBytes d) (bigBytes x) (bigBytes y) w.PublicKey) := by
  simp [Wallet.GobEncode, record, hD, hX, hY]

theorem GobEncode_isSome_iff (G : GobCodec) (w : Wallet) :
    (w.GobEncode G).isSome = true ↔
      w.PrivateKey.D ≠ none ∧ w.PrivateKey.PublicKey.X ≠ none
        ∧ w.PrivateKey.PublicKey.Y ≠ none := by
  obtain ⟨⟨⟨c, X, Y⟩, D⟩, pk⟩ := w
  cases D <;> cases X <;> cases Y <;> simp [Wallet.GobEncode]

/-! ## Claims about the serialized record -/

/-- C7: for every wallet on curve P256 whose `D`, `X` and `Y` are non-negative
integers, `GobEncode` succeeds, and `GobDecode` of its output into a fresh
wallet succeeds and yields a wallet with the same curve, the same `D`, `X`,
`Y`, the same `PublicKey` bytes, and so the same `GetAddress()` result. -/
theorem gob_round_trip (G : GobCodec) (w : Wallet) (d x y : Int)
    (hc : w.PrivateKey.PublicKey.Curve = some Curve.P256)
    (hD : w.PrivateKey.D = some d) (hd : 0 ≤ d)
    (hX : w.PrivateKey.PublicKey.X = some x) (hx : 0 ≤ x)
    (hY : w.PrivateKey.PublicKey.Y = some y) (hy : 0 ≤ y) :
    ∃ data w', w.GobEncode G = some data ∧ Wallet.zero.GobDecode G data = (w', none) ∧
      w'.PrivateKey.PublicKey.Curve = some Curve.P256 ∧
      w'.PrivateKey.D = some d ∧ w'.PrivateKey.PublicKey.X = some x ∧
      w'.PrivateKey.PublicKey.Y = some y ∧ w'.PublicKey = w.PublicKey ∧ w' = w ∧
      ∀ P : Primitives, w'.GetAddress P = w.GetAddress P := by
  refine ⟨_, _, GobEncode_eq_record G w d x y hD hX hY, GobDecode_record_P256 G _ _ _ _ _, ?_⟩
  obtain ⟨⟨⟨c, X, Y⟩, D⟩, pk⟩ := w
  simp only at hc hD hX hY
  subst hc hD hX hY
  rw [bigSetBytes_bigBytes _ hd, bigSetBytes_bigBytes _ hx, bigSetBytes_bigBytes _ hy]
  exact ⟨rfl, rfl, rfl, rfl, rfl, rfl, fun _ => rfl⟩

/-- Witness of C7: a wallet on P256 with `D = 5`, `X = 258`, `Y = 0`. -/
theorem gob_round_trip_witness :
    ∃ data w',
      (⟨⟨⟨some Curve.P256, some 258, some 0⟩, some 5⟩, [9, 8]⟩ : Wallet).GobEncode demoGob
        = some data ∧
      Wallet.zero.GobDecode demoGob data = (w', none) ∧
      w'.PrivateKey.PublicKey.Curve = some Curve.P256 ∧
      w'.PrivateKey.D = some 5 ∧ w'.PrivateKey.PublicKey.X = some 258 ∧
      w'.PrivateKey.PublicKey.Y = some 0 ∧ w'.PublicKey = [9, 8] ∧
      w' = (⟨⟨⟨some Curve.P256, some 258, some 0⟩, some 5⟩, [9, 8]⟩ : Wallet) ∧
      ∀ P : Primitives, w'.GetAddress P
        = (⟨⟨⟨some Curve.P256, some 258, some 0⟩, some 5⟩, [9, 8]⟩ : Wallet).GetAddress P :=
  gob_round_trip demoGob ⟨⟨⟨some Curve.P256, some 258, some 0⟩, some 5⟩, [9, 8]⟩ 5 258 0
    rfl rfl (by decide) rfl (by decide) rfl (by decide)

/-- C8: for every wallet that `GobEncode` serializes (its `D`, `X` and `Y` are
not nil), decoding the record into a fresh wallet and encoding that wallet again
produces exactly the same byte string. -/
theorem gob_reencode_identical (G : GobCodec) (w : Wallet)
    (hD : w.PrivateKey.D ≠ none) (hX : w.PrivateKey.PublicKey.X ≠ none)
    (hY : w.PrivateKey.PublicKey.Y ≠ none) :
    ∃ data w', w.GobEncode G = some data ∧ Wallet.zero.GobDecode G data = (w', none) ∧
      w'.GobEncode G = some data := by
  obtain ⟨⟨⟨c, X, Y⟩, D⟩, pk⟩ := w
  cases D with
  | none => exact absurd rfl hD
  | some d =>
    cases X with
    | none => exact absurd rfl hX
    | some x =>
      cases Y with
      | none => exact absurd rfl hY
      | some y =>
        refine ⟨_, _, GobEncode_eq_record G _ d x y rfl rfl rfl,
          GobDecode_record_P256 G _ _ _ _ _, ?_⟩
        rw [GobEncode_eq_record G _ _ _ _ rfl rfl rfl]
        simp only [bigBytes_bigSetBytes]

/-- Witness of C8: a wallet on P384 with a negative `D`, which the reload does
not reproduce, and whose record is reproduced all the same. -/
theorem gob_reencode_identical_witness :
    ∃ data w',
      (⟨⟨⟨some Curve.P384, some 3, some 4⟩, some (-5)⟩, [7]⟩ : Wallet).GobEncode demoGob
        = some data ∧
      Wallet.zero.GobDecode demoGob data = (w', none) ∧ w'.GobEncode demoGob = some data :=
  gob_reencode_identical demoGob ⟨⟨⟨some Curve.P384, some 3, some 4⟩, some (-5)⟩, [7]⟩
    (by decide) (by decide) (by decide)

/-- C9: on a well-formed record whose curve token is not `"P256"`, `GobDecode`
returns the unsupported-curve error and leaves the receiver unchanged; on a
well-formed record whose token is `"P256"` it returns no error and sets the
curve to P256, `D`, `X` and `Y` to the integers denoted by the recorded
big-endian byte strings, and `PublicKey` to the recorded bytes. -/
theorem gobDecode_wellFormed_record (G : GobCodec) (w : Wallet)
    (curveName d x y publicKey : List Byte) :
    (curveName ≠ curveNameP256 →
      w.GobDecode G (record G curveName d x y publicKey)
        = (w, some (GobError.unsupportedCurve curveName))) ∧
    (curveName = curveNameP256 →
      w.GobDecode G (record G curveName d x y publicKey)
        = ({ PrivateKey :=
               { PublicKey :=
                   { Curve := some Curve.P256, X := some (bytesToNat x : Int),
                     Y := some (bytesToNat y : Int) },
                 D := some (bytesToNat d : Int) },
             PublicKey := publicKey }, none)) := by
  constructor
  · exact GobDecode_record_unsupported G w curveName d x y publicKey
  · intro h
    subst h
    exact GobDecode_record_P256 G w d x y publicKey

/-- Witness of C9: a record with the token `"P384"` and one with `"P256"`, read
into a wallet that already holds key material. -/
theorem gobDecode_wellFormed_record_witness :
    (⟨⟨⟨some Curve.P521, some 1, some 2⟩, some 3⟩, [4]⟩ : Wallet).GobDecode demoGob
        (record demoGob [0x50, 0x33, 0x38, 0x34] [5] [6] [7] [8])
      = (⟨⟨⟨some Curve.P521, some 1, some 2⟩, some 3⟩, [4]⟩,
          some (GobError.unsupportedCurve [0x50, 0x33, 0x38, 0x34])) ∧
    (⟨⟨⟨some Curve.P521, some 1, some 2⟩, some 3⟩, [4]⟩ : Wallet).GobDecode demoGob
        (record demoGob [0x50, 0x32, 0x35, 0x36] [1, 0] [6] [] [8])
      = (⟨⟨⟨some Curve.P256, some (bytesToNat [6] : Int), some (bytesToNat [] : Int)⟩,
            some (bytesToNat [1, 0] : Int)⟩, [8]⟩, none) :=
  ⟨(gobDecode_wellFormed_record demoGob _ [0x50, 0x33, 0x38, 0x34] [5] [6] [7] [8]).1 (by decide),
   (gobDecode_wellFormed_record demoGob _ [0x50, 0x32, 0x35, 0x36] [1, 0] [6] [] [8]).2 rfl⟩

/-! ## Claims about the entry points -/

/-- C11: in `createBlockchain` the chain is created exactly when the address
validates. When `ValidateAddress` is false the run is the error message and
`os.Exit(1)`, with no call of `CreateBlockchain` or `Reindex`. When it is true
`CreateBlockchain(address, nodeID)` is called once, then `Reindex` once on the
chain it returned, and the store is closed after that. -/
theorem createBlockchain_iff_valid (P : Primitives) (C : Collaborators)
    (address nodeID : List Byte) :
    (ValidateAddress P address = some false →
      CLI.createBlockchain P C address nodeID
          = { trace := [Event.logPrintln msgAddressNotValid, Event.osExit 1],
              result := Termination.exited 1 } ∧
        (CLI.createBlockchain P C address nodeID).trace.countP Event.isCreateBlockchain = 0 ∧
        (CLI.createBlockchain P C address nodeID).trace.countP Event.isReindex = 0 ∧
        (CLI.createBlockchain P C address nodeID).trace.all
          (fun e => !e.isCollaborator) = true) ∧
    (ValidateAddress P address = some true →
      CLI.createBlockchain P C address nodeID
          = { trace := [Event.CreateBlockchain address nodeID,
                Event.Reindex (C.CreateBlockchain address nodeID),
                Event.fmtPrintln msgDone,
                Event.dbClose (C.CreateBlockchain address nodeID)],
              result := Termination.returned } ∧
        (CLI.createBlockchain P C address nodeID).trace.countP Event.isCreateBlockchain = 1 ∧
        (CLI.createBlockchain P C address nodeID).trace.countP Event.isReindex = 1) ∧
    ((CLI.createBlockchain P C address nodeID).trace.any Event.isCreateBlockchain = true ↔
      ValidateAddress P address = some true) := by
  refine ⟨?_, ?_, ?_⟩
  · intro h
    have hrun : CLI.createBlockchain P C address nodeID
        = { trace := [Event.logPrintln msgAddressNotValid, Event.osExit 1],
            result := Termination.exited 1 } := by
      simp only [CLI.createBlockchain, h]
    rw [hrun]
    exact ⟨rfl, rfl, rfl, rfl⟩
  · intro h
    have hrun : CLI.createBlockchain P C address nodeID
        = { trace := [Event.CreateBlockchain address nodeID,
              Event.Reindex (C.CreateBlockchain address nodeID),
              Event.fmtPrintln msgDone,
              Event.dbClose (C.CreateBlockchain address nodeID)],
            result := Termination.returned } := by
      simp only [CLI.createBlockchain, h]
    rw [hrun]
    exact ⟨rfl, rfl, rfl⟩
  · cases h : ValidateAddress P address with
    | none => simp [CLI.createBlockchain, h]
    | some b =>
      cases b with
      | false => simp [CLI.createBlockchain, h, Event.isCreateBlockchain]
      | true => simp [CLI.createBlockchain, h, Event.isCreateBlockchain]

/-- Witness of C11: an accepted address and a rejected one. -/
theorem createBlockchain_iff_valid_witness :
    (CLI.createBlockchain demoPrimitives demoCollaborators [0, 1, 50, 50, 50, 50] [1, 2]
        = { trace := [Event.CreateBlockchain [0, 1, 50, 50, 50, 50] [1, 2],
              Event.Reindex (demoCollaborators.CreateBlockchain [0, 1, 50, 50, 50, 50] [1, 2]),
              Event.fmtPrintln msgDone,
              Event.dbClose (demoCollaborators.CreateBlockchain [0, 1, 50, 50, 50, 50] [1, 2])],
            result := Termination.returned }) ∧
      (CLI.createBlockchain demoPrimitives demoCollaborators [0, 1, 50, 50, 50, 51] [1, 2]
        = { trace := [Event.logPrintln msgAddressNotValid, Event.osExit 1],
            result := Termination.exited 1 }) :=
  ⟨((createBlockchain_iff_valid demoPrimitives demoCollaborators [0, 1, 50, 50, 50, 50]
      [1, 2]).2.1 (by decide)).1,
   ((createBlockchain_iff_valid demoPrimitives demoCollaborators [0, 1, 50, 50, 50, 51]
      [1, 2]).1 (by decide)).1⟩

/-- C12: in `send`, when the sender address does not validate, or the recipient
address does not validate, or the two addresses are equal, the run ends by
`os.Exit(1)` or a panic and contains no call of a collaborator: the chain is not
opened, no wallet is loaded, no transaction is built, no block is mined, the
UTXO set is not updated and nothing is sent to a peer. -/
theorem send_rejects_before_collaborators (P : Primitives) (C : Collaborators)
    (from_ to_ : List Byte) (amount : Int) (nodeID : List Byte) (mineNow : Bool)
    (h : ValidateAddress P from_ ≠ some true ∨ ValidateAddress P to_ ≠ some true
      ∨ from_ = to_) :
    (CLI.send P C from_ to_ amount nodeID mineNow).trace.all
        (fun e => !e.isCollaborator) = true ∧
      ((CLI.send P C from_ to_ amount nodeID mineNow).result = Termination.exited 1 ∨
        (CLI.send P C from_ to_ amount nodeID mineNow).result = Termination.panicked) ∧
      (ValidateAddress P from_ = some false ∨
          (ValidateAddress P from_ = some true ∧ ValidateAddress P to_ ≠ none) →
        (CLI.send P C from_ to_ amount nodeID mineNow).result = Termination.exited 1) := by
  cases hf : ValidateAddress P from_ with
  | none => simp [CLI.send, hf]
  | some bf =>
    cases bf with
    | false => simp [CLI.send, hf, Event.isCollaborator]
    | true =>
      cases ht : ValidateAddress P to_ with
      | none => simp [CLI.send, hf, ht]
      | some bt =>
        cases bt with
        | false => simp [CLI.send, hf, ht, Event.isCollaborator]
        | true =>
          have heq : from_ = to_ := by
            rcases h with h | h | h
            · exact absurd hf h
            · exact absurd ht h
            · exact h
          simp [CLI.send, hf, ht, heq, Event.isCollaborator]

/-- Witness of C12: an invalid sender, an invalid recipient, and twice the same
valid address. -/
theorem send_rejects_before_collaborators_witness :
    (CLI.send demoPrimitives demoCollaborators [0, 1, 50, 50, 50, 51] [0, 2, 55, 55, 55, 55]
        4 [1] true).result = Termination.exited 1 ∧
      (CLI.send demoPrimitives demoCollaborators [0, 1, 50, 50, 50, 50] [0, 2, 55, 55, 55, 0]
        4 [1] false).result = Termination.exited 1 ∧
      (CLI.send demoPrimitives demoCollaborators [0, 1, 50, 50, 50, 50] [0, 1, 50, 50, 50, 50]
        4 [1] true).trace.all (fun e => !e.isCollaborator) = true :=
  ⟨(send_rejects_before_collaborators demoPrimitives demoCollaborators [0, 1, 50, 50, 50, 51]
      [0, 2, 55, 55, 55, 55] 4 [1] true (Or.inl (by decide))).2.2 (Or.inl (by decide)),
   (send_rejects_before_collaborators demoPrimitives demoCollaborators [0, 1, 50, 50, 50, 50]
      [0, 2, 55, 55, 55, 0] 4 [1] false (Or.inr (Or.inl (by decide)))).2.2
        (Or.inr ⟨by decide, by decide⟩),
   (send_rejects_before_collaborators demoPrimitives demoCollaborators [0, 1, 50, 50, 50, 50]
      [0, 1, 50, 50, 50, 50] 4 [1] true (Or.inr (Or.inr rfl))).1⟩

/-- Counterexample to C13: with valid, distinct addresses and `mineNow` true,
a non-nil error of `NewWallets` makes `send` panic after the chain is opened:
no block is mined and `Update` is not called; with `mineNow` false nothing is
sent either. -/
theorem send_wallets_error_mines_nothing :
    ValidateAddress demoPrimitives [0, 1, 50, 50, 50, 50] = some true ∧
      ValidateAddress demoPrimitives [0, 2, 55, 55, 55, 55] = some true ∧
      ([0, 1, 50, 50, 50, 50] : List Byte) ≠ [0, 2, 55, 55, 55, 55] ∧
      (CLI.send demoPrimitives demoCollaboratorsNoWallets [0, 1, 50, 50, 50, 50]
        [0, 2, 55, 55, 55, 55] 4 [1] true).trace.countP Event.isMineBlock = 0 ∧
      (CLI.send demoPrimitives demoCollaboratorsNoWallets [0, 1, 50, 50, 50, 50]
        [0, 2, 55, 55, 55, 55] 4 [1] true).trace.countP Event.isUpdate = 0 ∧
      (CLI.send demoPrimitives demoCollaboratorsNoWallets [0, 1, 50, 50, 50, 50]
        [0, 2, 55, 55, 55, 55] 4 [1] true).result = Termination.panicked ∧
      (CLI.send demoPrimitives demoCollaboratorsNoWallets [0, 1, 50, 50, 50, 50]
        [0, 2, 55, 55, 55, 55] 4 [1] false).trace.countP Event.isSendTx = 0 ∧
      (CLI.send demoPrimitives demoCollaboratorsNoWallets [0, 1, 50, 50, 50, 50]
        [0, 2, 55, 55, 55, 55] 4 [1] false).result = Termination.panicked := by
  decide

/-- C13, amended: in `send` with valid, distinct addresses, a non-nil error of
`NewWallets` ends the run by `log.Panic` after the chain is opened and closed
again, whatever `mineNow` is: no transaction is built, no block is mined,
`Update` is not called and nothing is sent. When `NewWallets` returns no error,
`mineNow` selects one of two paths. When true, `MineBlock` is called once on the
two transactions (coinbase paying the sender, the new transfer) in that order,
`Update` is called once on the block it returned, and `sendTx` is not called.
When false and a known node exists, `sendTx` is called once, with the first
known node and the new transfer, and neither `MineBlock` nor `Update` is
called, so that no call writing the local chain or the cache is made. -/
theorem send_mineNow_paths (P : Primitives) (C : Collaborators)
    (from_ to_ : List Byte) (amount : Int) (nodeID : List Byte)
    (hf : ValidateAddress P from_ = some true) (ht : ValidateAddress P to_ = some true)
    (hne : from_ ≠ to_) :
    ((C.NewWallets nodeID).2 = true → ∀ mineNow : Bool,
      CLI.send P C from_ to_ amount nodeID mineNow
        = { trace := [Event.NewBlockchain nodeID, Event.NewWallets nodeID, Event.logPanic,
              Event.dbClose (C.NewBlockchain nodeID)],
            result := Termination.panicked } ∧
      (CLI.send P C from_ to_ amount nodeID mineNow).trace.countP Event.isMineBlock = 0 ∧
      (CLI.send P C from_ to_ amount nodeID mineNow).trace.countP Event.isUpdate = 0 ∧
      (CLI.send P C from_ to_ amount nodeID mineNow).trace.countP Event.isSendTx = 0) ∧
    ((C.NewWallets nodeID).2 = false →
      CLI.send P C from_ to_ amount nodeID true
        = { trace :=
              [Event.NewBlockchain nodeID, Event.NewWallets nodeID,
                Event.GetWallet (C.NewWallets nodeID).1 from_,
                Event.NewUTXOTransaction (C.GetWallet (C.NewWallets nodeID).1 from_) to_ amount
                  (C.NewBlockchain nodeID),
                Event.NewCoinbaseTX from_ [],
                Event.MineBlock (C.NewBlockchain nodeID)
                  [C.NewCoinbaseTX from_ [],
                    C.NewUTXOTransaction (C.GetWallet (C.NewWallets nodeID).1 from_) to_ amount
                      (C.NewBlockchain nodeID)],
                Event.Update (C.NewBlockchain nodeID)
                  (C.MineBlock (C.NewBlockchain nodeID)
                    [C.NewCoinbaseTX from_ [],
                      C.NewUTXOTransaction (C.GetWallet (C.NewWallets nodeID).1 from_) to_ amount
                        (C.NewBlockchain nodeID)]),
                Event.fmtPrintln msgSuccess, Event.dbClose (C.NewBlockchain nodeID)],
            result := Termination.returned } ∧
      (CLI.send P C from_ to_ amount nodeID true).trace.countP Event.isMineBlock = 1 ∧
      (CLI.send P C from_ to_ amount nodeID true).trace.countP Event.isUpdate = 1 ∧
      (CLI.send P C from_ to_ amount nodeID true).trace.countP Event.isSendTx = 0) ∧
    ((C.NewWallets nodeID).2 = false →
      ∀ (node : C.Peer) (others : List C.Peer), C.knownNodes = node :: others →
        CLI.send P C from_ to_ amount nodeID false
          = { trace :=
                [Event.NewBlockchain nodeID, Event.NewWallets nodeID,
                  Event.GetWallet (C.NewWallets nodeID).1 from_,
                  Event.NewUTXOTransaction (C.GetWallet (C.NewWallets nodeID).1 from_) to_
                    amount (C.NewBlockchain nodeID),
                  Event.sendTx node
                    (C.NewUTXOTransaction (C.GetWallet (C.NewWallets nodeID).1 from_) to_
                      amount (C.NewBlockchain nodeID)),
                  Event.fmtPrintln msgSuccess, Event.dbClose (C.NewBlockchain nodeID)],
              result := Termination.returned } ∧
        (CLI.send P C from_ to_ amount nodeID false).trace.countP Event.isSendTx = 1 ∧
        (CLI.send P C from_ to_ amount nodeID false).trace.countP Event.isMineBlock = 0 ∧
        (CLI.send P C from_ to_ amount nodeID false).trace.countP Event.isUpdate = 0 ∧
        (CLI.send P C from_ to_ amount nodeID false).trace.all
          (fun e => !e.writesChainOrCache) = true) := by
  refine ⟨?_, ?_, ?_⟩
  · intro herr mineNow
    have hrun : CLI.send P C from_ to_ amount nodeID mineNow
        = { trace := [Event.NewBlockchain nodeID, Event.NewWallets nodeID, Event.logPanic,
              Event.dbClose (C.NewBlockchain nodeID)],
            result := Termination.panicked } := by
      simp [CLI.send, hf, ht, hne, herr]
    rw [hrun]
    exact ⟨rfl, rfl, rfl, rfl⟩
  · intro herr
    have hrun : CLI.send P C from_ to_ amount nodeID true
        = { trace :=
              [Event.NewBlockchain nodeID, Event.NewWallets nodeID,
                Event.GetWallet (C.NewWallets nodeID).1 from_,
                Event.NewUTXOTransaction (C.GetWallet (C.NewWallets nodeID).1 from_) to_ amount
                  (C.NewBlockchain nodeID),
                Event.NewCoinbaseTX from_ [],
                Event.MineBlock (C.NewBlockchain nodeID)
                  [C.NewCoinbaseTX from_ [],
                    C.NewUTXOTransaction (C.GetWallet (C.NewWallets nodeID).1 from_) to_ amount
                      (C.NewBlockchain nodeID)],
                Event.Update (C.NewBlockchain nodeID)
                  (C.MineBlock (C.NewBlockchain nodeID)
                    [C.NewCoinbaseTX from_ [],
                      C.NewUTXOTransaction (C.GetWallet (C.NewWallets nodeID).1 from_) to_ amount
                        (C.NewBlockchain nodeID)]),
                Event.fmtPrintln msgSuccess, Event.dbClose (C.NewBlockchain nodeID)],
            result := Termination.returned } := by
      simp [CLI.send, hf, ht, hne, herr]
    rw [hrun]
    exact ⟨rfl, rfl, rfl, rfl⟩
  · intro herr node others hk
    have hrun : CLI.send P C from_ to_ amount nodeID false
        = { trace :=
              [Event.NewBlockchain nodeID, Event.NewWallets nodeID,
                Event.GetWallet (C.NewWallets nodeID).1 from_,
                Event.NewUTXOTransaction (C.GetWallet (C.NewWallets nodeID).1 from_) to_ amount
                  (C.NewBlockchain nodeID),
                Event.sendTx node
                  (C.NewUTXOTransaction (C.GetWallet (C.NewWallets nodeID).1 from_) to_ amount
                    (C.NewBlockchain nodeID)),
                Event.fmtPrintln msgSuccess, Event.dbClose (C.NewBlockchain nodeID)],
            result := Termination.returned } := by
      simp [CLI.send, hf, ht, hne, herr, hk]
    rw [hrun]
    exact ⟨rfl, rfl, rfl, rfl, rfl⟩

/-- Witness of C13, amended: two valid, distinct addresses; one instance loads
the wallets and knows two nodes, the other returns an error from `NewWallets`. -/
theorem send_mineNow_paths_witness :
    (CLI.send demoPrimitives demoCollaborators [0, 1, 50, 50, 50, 50] [0, 2, 55, 55, 55, 55]
        4 [1] true).trace.countP Event.isMineBlock = 1 ∧
      (CLI.send demoPrimitives demoCollaborators [0, 1, 50, 50, 50, 50] [0, 2, 55, 55, 55, 55]
        4 [1] false).trace.countP Event.isSendTx = 1 ∧
      (CLI.send demoPrimitives demoCollaborators [0, 1, 50, 50, 50, 50] [0, 2, 55, 55, 55, 55]
        4 [1] false).trace.all (fun e => !e.writesChainOrCache) = true ∧
      (CLI.send demoPrimitives demoCollaboratorsNoWallets [0, 1, 50, 50, 50, 50]
        [0, 2, 55, 55, 55, 55] 4 [1] true).trace.countP Event.isMineBlock = 0 :=
  ⟨((send_mineNow_paths demoPrimitives demoCollaborators [0, 1, 50, 50, 50, 50]
      [0, 2, 55, 55, 55, 55] 4 [1] (by decide) (by decide) (by decide)).2.1 rfl).2.1,
   (((send_mineNow_paths demoPrimitives demoCollaborators [0, 1, 50, 50, 50, 50]
      [0, 2, 55, 55, 55, 55] 4 [1] (by decide) (by decide) (by decide)).2.2 rfl)
        _ _ rfl).2.1,
   (((send_mineNow_paths demoPrimitives demoCollaborators [0, 1, 50, 50, 50, 50]
      [0, 2, 55, 55, 55, 55] 4 [1] (by decide) (by decide) (by decide)).2.2 rfl)
        _ _ rfl).2.2.2.2,
   ((send_mineNow_paths demoPrimitives demoCollaboratorsNoWallets [0, 1, 50, 50, 50, 50]
      [0, 2, 55, 55, 55, 55] 4 [1] (by decide) (by decide) (by decide)).1 rfl true).2.1⟩

/-! ## Minimal encoding of integers -/

theorem natBytesAux_zero (fuel : Nat) (acc : List Byte) : natBytesAux fuel 0 acc = acc := by
  cases fuel <;> simp [natBytesAux]

theorem natBytesAux_head (fuel : Nat) :
    ∀ (n : Nat) (acc : List Byte), n ≤ fuel → n ≠ 0 →
      (natBytesAux fuel n acc).head? ≠ some 0 := by
  induction fuel with
  | zero => intro n acc hn h0; omega
  | succ k ih =>
    intro n acc hn h0
    simp only [natBytesAux, h0, if_false]
    by_cases hq : n / 256 = 0
    · rw [hq, natBytesAux_zero]
      intro hc
      simp only [List.head?_cons, Option.some.injEq] at hc
      have hv := congrArg Fin.val hc
      simp only [Fin.val_zero] at hv
      omega
    · exact ih (n / 256) _ (by omega) hq

theorem natBytes_head (n : Nat) : (natBytes n).head? ≠ some 0 := by
  by_cases h0 : n = 0
  · subst h0; simp [natBytes, natBytesAux]
  · exact natBytesAux_head n n [] (Nat.le_refl n) h0

/-! ## Claims about key generation, failed decoding and the version byte -/

/-- C14: every wallet produced by `NewWallet` has `PublicKey = bytes(X) ++
bytes(Y)`, where `bytes` is the big-endian encoding of the magnitude without a
leading zero byte and nothing is put before or between the two strings; the
wallet obtained by `GobEncode` and `GobDecode` into a fresh wallet has the same
property. -/
theorem newWallet_pubKeyIsXY (generated : Option (Int × Int × Int)) (w : Wallet)
    (h : NewWallet generated = some w) :
    (∃ x y, w.PrivateKey.PublicKey.X = some x ∧ w.PrivateKey.PublicKey.Y = some y ∧
      w.PublicKey = bigBytes x ++ bigBytes y ∧
      bytesToNat (bigBytes x) = x.natAbs ∧ (bigBytes x).head? ≠ some 0 ∧
      bytesToNat (bigBytes y) = y.natAbs ∧ (bigBytes y).head? ≠ some 0) ∧
    w.pubKeyIsXY = true ∧
    ∀ G : GobCodec, ∃ data w', w.GobEncode G = some data ∧
      Wallet.zero.GobDecode G data = (w', none) ∧ w'.pubKeyIsXY = true := by
  cases generated with
  | none => simp [NewWallet, newKeyPair] at h
  | some g =>
    obtain ⟨d, x, y⟩ := g
    simp only [NewWallet, newKeyPair, Option.some.injEq] at h
    subst h
    refine ⟨⟨x, y, rfl, rfl, rfl, bytesToNat_natBytes _, natBytes_head _,
      bytesToNat_natBytes _, natBytes_head _⟩, ?_, ?_⟩
    · simp [Wallet.pubKeyIsXY]
    · intro G
      refine ⟨_, _, GobEncode_eq_record G _ d x y rfl rfl rfl,
        GobDecode_record_P256 G _ _ _ _ _, ?_⟩
      simp [Wallet.pubKeyIsXY, bigBytes_bigSetBytes]

/-- Witness of C14: the wallet of the generated key `D = 5`, `X = 258`, `Y = 3`. -/
theorem newWallet_pubKeyIsXY_witness :
    (∃ x y,
      (⟨⟨⟨some Curve.P256, some 258, some 3⟩, some 5⟩, [1, 2, 3]⟩ : Wallet).PrivateKey.PublicKey.X
          = some x ∧
      (⟨⟨⟨some Curve.P256, some 258, some 3⟩, some 5⟩, [1, 2, 3]⟩ : Wallet).PrivateKey.PublicKey.Y
          = some y ∧
      (⟨⟨⟨some Curve.P256, some 258, some 3⟩, some 5⟩, [1, 2, 3]⟩ : Wallet).PublicKey
          = bigBytes x ++ bigBytes y ∧
      bytesToNat (bigBytes x) = x.natAbs ∧ (bigBytes x).head? ≠ some 0 ∧
      bytesToNat (bigBytes y) = y.natAbs ∧ (bigBytes y).head? ≠ some 0) ∧
    (⟨⟨⟨some Curve.P256, some 258, some 3⟩, some 5⟩, [1, 2, 3]⟩ : Wallet).pubKeyIsXY = true ∧
    ∀ G : GobCodec, ∃ data w',
      (⟨⟨⟨some Curve.P256, some 258, some 3⟩, some 5⟩, [1, 2, 3]⟩ : Wallet).GobEncode G
          = some data ∧
      Wallet.zero.GobDecode G data = (w', none) ∧ w'.pubKeyIsXY = true :=
  newWallet_pubKeyIsXY (some (5, 258, 3))
    ⟨⟨⟨some Curve.P256, some 258, some 3⟩, some 5⟩, [1, 2, 3]⟩ (by decide)

/-- Counterexample to C15: a record cut after its second message makes
`GobDecode` return an error on the fresh wallet, and the wallet then holds the
curve P256 and `D = 5`. -/
theorem gobDecode_truncated_changes_wallet :
    Wallet.zero.GobDecode demoGob
        (demoGob.encode (GobValue.str curveNameP256) ++ demoGob.encode (GobValue.bytes [5]))
      = (⟨⟨⟨some Curve.P256, none, none⟩, some 5⟩, []⟩, some GobError.decode) ∧
    (⟨⟨⟨some Curve.P256, none, none⟩, some 5⟩, []⟩ : Wallet) ≠ Wallet.zero := by
  decide

/-- C15, amended: whenever `GobDecode` returns an error, `PublicKey` is as
before the call; when the error is at the curve token (unreadable or
unsupported) or at the private-scalar message, the whole receiver is as before
the call; when the token is `"P256"`, the private-scalar message is read and a
later message fails, the receiver holds the curve P256 and the decoded `D`. -/
theorem gobDecode_failure_frame (G : GobCodec) (w : Wallet) (data : List Byte) :
    ((w.GobDecode G data).2 ≠ none → (w.GobDecode G data).1.PublicKey = w.PublicKey) ∧
    ((G.DecodeString data = none ∨
        ∃ curveName rest, G.DecodeString data = some (curveName, rest) ∧
          (curveName ≠ curveNameP256 ∨ G.DecodeBytes rest = none)) →
      (w.GobDecode G data).2 ≠ none ∧ (w.GobDecode G data).1 = w) ∧
    (∀ rest d rest2, G.DecodeString data = some (curveNameP256, rest) →
      G.DecodeBytes rest = some (d, rest2) → (w.GobDecode G data).2 ≠ none →
        (w.GobDecode G data).1.PrivateKey.PublicKey.Curve = some Curve.P256 ∧
        (w.GobDecode G data).1.PrivateKey.D = some (bigSetBytes d)) := by
  refine ⟨?_, ?_, ?_⟩
  · cases h1 : G.DecodeString data with
    | none => simp [Wallet.GobDecode, h1]
    | some r1 =>
      obtain ⟨curveName, b1⟩ := r1
      by_cases hn : curveName = curveNameP256
      · subst hn
        cases h2 : G.DecodeBytes b1 with
        | none => simp [Wallet.GobDecode, h1, h2]
        | some r2 =>
          obtain ⟨d, b2⟩ := r2
          cases h3 : G.DecodeBytes b2 with
          | none => simp [Wallet.GobDecode, h1, h2, h3]
          | some r3 =>
            obtain ⟨x, b3⟩ := r3
            cases h4 : G.DecodeBytes b3 with
            | none => simp [Wallet.GobDecode, h1, h2, h3, h4]
            | some r4 =>
              obtain ⟨y, b4⟩ := r4
              cases h5 : G.DecodeBytes b4 with
              | none => simp [Wallet.GobDecode, h1, h2, h3, h4, h5]
              | some r5 => simp [Wallet.GobDecode, h1, h2, h3, h4, h5]
      · simp [Wallet.GobDecode, h1, hn]
  · rintro (h1 | ⟨curveName, rest, h1, h2⟩)
    · simp [Wallet.GobDecode, h1]
    · rcases h2 with h2 | h2
      · simp [Wallet.GobDecode, h1, h2]
      · by_cases hn : curveName = curveNameP256
        · subst hn
          simp [Wallet.GobDecode, h1, h2]
        · simp [Wallet.GobDecode, h1, hn]
  · intro rest d rest2 h1 h2
    cases h3 : G.DecodeBytes rest2 with
    | none => simp [Wallet.GobDecode, h1, h2, h3]
    | some r3 =>
      obtain ⟨x, b3⟩ := r3
      cases h4 : G.DecodeBytes b3 with
      | none => simp [Wallet.GobDecode, h1, h2, h3, h4]
      | some r4 =>
        obtain ⟨y, b4⟩ := r4
        cases h5 : G.DecodeBytes b4 with
        | none => simp [Wallet.GobDecode, h1, h2, h3, h4, h5]
        | some r5 => simp [Wallet.GobDecode, h1, h2, h3, h4, h5]

/-- Witness of C15, amended: a record with the token `"P384"` leaves a wallet
with key material unchanged. -/
theorem gobDecode_failure_frame_witness :
    ((⟨⟨⟨some Curve.P521, some 1, some 2⟩, some 3⟩, [4]⟩ : Wallet).GobDecode demoGob
        (record demoGob [0x50, 0x33, 0x38, 0x34] [5] [6] [7] [8])).2 ≠ none ∧
      ((⟨⟨⟨some Curve.P521, some 1, some 2⟩, some 3⟩, [4]⟩ : Wallet).GobDecode demoGob
        (record demoGob [0x50, 0x33, 0x38, 0x34] [5] [6] [7] [8])).1
        = ⟨⟨⟨some Curve.P521, some 1, some 2⟩, some 3⟩, [4]⟩ :=
  (gobDecode_failure_frame demoGob ⟨⟨⟨some Curve.P521, some 1, some 2⟩, some 3⟩, [4]⟩
    (record demoGob [0x50, 0x33, 0x38, 0x34] [5] [6] [7] [8])).2.1
    (Or.inr ⟨[0x50, 0x33, 0x38, 0x34],
      demoGob.encode (GobValue.bytes [5]) ++ (demoGob.encode (GobValue.bytes [6])
        ++ (demoGob.encode (GobValue.bytes [7]) ++ demoGob.encode (GobValue.bytes [8]))),
      by decide, Or.inl (by decide)⟩)

/-- Counterexample to C16: a decoded payload whose first byte is 5, not the
version constant, and whose last four bytes are the checksum of its first two,
is accepted. -/
theorem validateAddress_accepts_version_five :
    (demoPrimitives.Base58Decode [5, 1, 225, 225, 225, 225]).head? = some 5 ∧
      (5 : Byte) ≠ version ∧
      checksum demoPrimitives [5, 1] = [225, 225, 225, 225] ∧
      ValidateAddress demoPrimitives [5, 1, 225, 225, 225, 225] = some true := by
  decide

/-- C16, amended: `ValidateAddress` accepts a payload whatever its first byte
is: for every byte `v` and every byte string `body`, an input whose decoded
payload is `v ++ body ++ checksum(v ++ body)` is accepted; the first byte is
part of the checksummed data and is not compared with the version constant. -/
theorem validateAddress_any_version (P : Primitives) (address : List Byte) (v : Byte)
    (body : List Byte)
    (h : P.Base58Decode address = [v] ++ body ++ checksum P ([v] ++ body)) :
    (P.Base58Decode address).head? = some v ∧ ValidateAddress P address = some true := by
  have hlen : (P.Base58Decode address).length = ([v] ++ body).length + 4 := by
    rw [h, List.length_append, checksum_length]
  have h5 : 5 ≤ (P.Base58Decode address).length := by
    rw [hlen]; simp
  refine ⟨by rw [h]; rfl, ?_⟩
  rw [ValidateAddress_long P address h5, hlen, Nat.add_sub_cancel, h,
    List.drop_left, List.take_left]
  simp

/-- Witness of C16, amended: the payload `05 01` with its checksum. -/
theorem validateAddress_any_version_witness :
    (demoPrimitives.Base58Decode [5, 1, 225, 225, 225, 225]).head? = some 5 ∧
      ValidateAddress demoPrimitives [5, 1, 225, 225, 225, 225] = some true :=
  validateAddress_any_version demoPrimitives [5, 1, 225, 225, 225, 225] 5 [1] (by decide)

end BlockchainGo
